import Mathlib

/-!
Verification of the self-contained JSON engine of `src/c/src/github_stats.c`
(the Value model, the recursive-descent parser and the accessor helpers,
lines 13-466 of the source).

Embedding conventions:
- A C string is a NUL-terminated byte buffer.  We model the input as a
  `List Char`; the end of the list plays the role of the terminating NUL.
  `json_peek` and `json_next` return the sentinel `nul_char` at the end of
  the input, exactly as `*parser->cur` yields `0` at the terminator.  An
  input list is assumed not to contain `nul_char` itself (such a byte could
  not occur inside a C string); theorems that quantify over arbitrary
  characters carry that assumption explicitly where it matters.
- The C recursion is unbounded (limited only by the machine stack).  The
  mutually recursive grammar functions here take a fuel argument; every
  recursive call strictly decreases it, so the definitions are structural
  and compute by `rfl`.  `json_parse` supplies `4 * length + 4` units,
  which is never exhausted: each unit of fuel spent on the cycle
  value -> array/object -> element loop -> value consumes at least one
  input character (the opening bracket, the comma, or the first character
  of the element), so at most three units are spent per input character.
- `double` arithmetic is modelled with exact rationals; the claims only
  evaluate numbers that are exactly representable in both.
- Allocation failure aborts the C process (`xmalloc`) and is outside the
  model, as are the freeing functions (`json_free`), which have no
  observable result.
-/

/-- The NUL terminator byte, `Char.ofNat 0`; it marks end of input. -/
def nul_char : Char := Char.ofNat 0

/-- The double-quote byte `"` (0x22), the string delimiter of the grammar. -/
def quote_char : Char := Char.ofNat 34

/-- The backslash byte (0x5c), the escape introducer of the grammar. -/
def backslash_char : Char := Char.ofNat 92

/-- The opening brace byte (0x7b), the object opener of the grammar. -/
def lbrace_char : Char := Char.ofNat 123

/-- The closing brace byte (0x7d), the object closer of the grammar. -/
def rbrace_char : Char := Char.ofNat 125

/-- The apostrophe byte (0x27), used by `json_expect` diagnostics. -/
def apo_char : Char := Char.ofNat 39

/-- The tagged value tree of the source: `JsonType` plus the payload union
of `struct JsonValue`.  `JSON_BOOL` stores a C `int` used as a boolean;
`JSON_NUMBER` stores a `double`, modelled as an exact rational;
`JSON_OBJECT` stores the parallel `keys`/`values` arrays of `JsonObject`,
modelled as one list of pairs. -/
inductive JsonValue where
  | null
  | bool (b : Bool)
  | number (q : ℚ)
  | str (s : List Char)
  | array (items : List JsonValue)
  | object (entries : List (List Char × JsonValue))

/-- The parser state `JsonParser` of the source: the original input
(`start`), the cursor (`cur`, the not-yet-consumed suffix of the input)
and the latched error buffer (`error`, `[]` when no error is latched,
matching `error[0] == 0` in C). -/
structure JsonParser where
  start : List Char
  cur : List Char
  error : List Char

/-- Models `json_error` (source lines 68-72): latch the first error.  If the slot
is still empty it receives `snprintf("%s near %.32s", message, cur)` -- the
message, the text ` near `, and at most 32 characters of the remaining
input, the whole truncated to the 127 characters that fit the 128-byte
buffer.  A later report finds the slot non-empty and changes nothing. -/
def json_error (p : JsonParser) (message : List Char) : JsonParser :=
  if p.error = [] then
    { p with error := (message ++ " near ".toList ++ p.cur.take 32).take 127 }
  else p

/-- Models `json_peek` (source lines 74-76): the byte at the cursor, which is the
NUL terminator once the input is exhausted. -/
def json_peek (p : JsonParser) : Char :=
  p.cur.headD nul_char

/-- Models `json_next` (source lines 78-84): return the byte at the cursor and
advance, except at the terminator, where it returns NUL and stays put. -/
def json_next (p : JsonParser) : Char × JsonParser :=
  match p.cur with
  | [] => (nul_char, p)
  | c :: rest => if c = nul_char then (nul_char, p) else (c, { p with cur := rest })

/-- Models `json_expect` (source lines 86-92): consume one byte; if it is not the
required one, latch the expected-character message (the cursor has already advanced past
the offending byte, as in the source). -/
def json_expect (p : JsonParser) (ch : Char) : JsonParser :=
  let n := json_next p
  if n.1 = ch then n.2
  else json_error n.2 ("Expected ".toList ++ [apo_char, ch, apo_char])

/-- The whitespace test of `json_skip_ws` (source lines 368-372): space,
newline, carriage return, tab. -/
def is_ws (c : Char) : Bool :=
  c = ' ' || c = '\n' || c = '\r' || c = '\t'

/-- Models `json_skip_ws` (source lines 368-372): advance the cursor over
whitespace. -/
def json_skip_ws (p : JsonParser) : JsonParser :=
  { p with cur := p.cur.dropWhile is_ws }

/-- The digit test `*cur >= '0' && *cur <= '9'` used by
`json_parse_number`. -/
def is_digit (c : Char) : Bool :=
  '0' ≤ c && c ≤ '9'

/-- The string-literal scanning loop of `json_parse_string_literal`
(source lines 100-170), including the post-loop closing-quote check.  One
iteration consumes at least one character, so the fuel supplied by the
wrapper (`cur.length + 1`) is never exhausted.  The eight simple escapes
resolve to single bytes, a `u` escape copies the backslash, the `u` and
the four following bytes into the buffer verbatim, any other escape byte
latches `Invalid escape sequence` and returns no buffer (C returns NULL
after freeing it). -/
def str_lit_loop (fuel : Nat) (p : JsonParser) (buf : List Char) :
    Option (List Char) × JsonParser :=
  match fuel with
  | 0 => (none, p)
  | fuel + 1 =>
    if json_peek p = nul_char ∨ json_peek p = quote_char then
      if json_peek p = quote_char then (some buf, json_expect p quote_char)
      else (none, json_error p "Unterminated string literal".toList)
    else
      let n1 := json_next p
      if n1.1 = backslash_char then
        let n2 := json_next n1.2
        if n2.1 = nul_char then
          (none, json_error n2.2 "Unterminated escape sequence".toList)
        else if n2.1 = quote_char ∨ n2.1 = backslash_char ∨ n2.1 = '/' then
          str_lit_loop fuel n2.2 (buf ++ [n2.1])
        else if n2.1 = 'b' then str_lit_loop fuel n2.2 (buf ++ [Char.ofNat 8])
        else if n2.1 = 'f' then str_lit_loop fuel n2.2 (buf ++ [Char.ofNat 12])
        else if n2.1 = 'n' then str_lit_loop fuel n2.2 (buf ++ [Char.ofNat 10])
        else if n2.1 = 'r' then str_lit_loop fuel n2.2 (buf ++ [Char.ofNat 13])
        else if n2.1 = 't' then str_lit_loop fuel n2.2 (buf ++ [Char.ofNat 9])
        else if n2.1 = 'u' then
          let m1 := json_next n2.2
          let m2 := json_next m1.2
          let m3 := json_next m2.2
          let m4 := json_next m3.2
          str_lit_loop fuel m4.2
            (buf ++ [backslash_char, 'u', m1.1, m2.1, m3.1, m4.1])
        else (none, json_error n2.2 "Invalid escape sequence".toList)
      else str_lit_loop fuel n1.2 (buf ++ [n1.1])

/-- Models `json_parse_string_literal` (source lines 94-171): consume the opening
quote, run the scanning loop, and either return the accumulated buffer
(closing quote consumed) or no buffer with an error latched. -/
def json_parse_string_literal (p : JsonParser) :
    Option (List Char) × JsonParser :=
  str_lit_loop (p.cur.length + 1) (json_expect p quote_char) []

/-- Models `json_array_push` (source lines 189-200): append one item at the end
of an array value.  The C function is only ever handed an array; on any
other variant it would reinterpret the payload union, which the model
leaves as the identity. -/
def json_array_push (arrayValue : JsonValue) (item : JsonValue) : JsonValue :=
  match arrayValue with
  | JsonValue.array items => JsonValue.array (items ++ [item])
  | v => v

/-- Models `json_object_put` (source lines 202-216): append one `(key, value)`
entry at the end of an object value; no search for an existing equal key
is performed.  As with `json_array_push`, the C function is only ever
handed an object. -/
def json_object_put (objectValue : JsonValue) (key : List Char)
    (value : JsonValue) : JsonValue :=
  match objectValue with
  | JsonValue.object entries => JsonValue.object (entries ++ [(key, value)])
  | v => v

/-- The sign step of the `json_parse_number` cursor movement (source lines
220-222): consume an optional leading minus.  Returns the consumed
characters and the remaining input. -/
def scan_sign (s : List Char) : List Char × List Char :=
  match s with
  | '-' :: r => (['-'], r)
  | _ => ([], s)

/-- The fraction step of the `json_parse_number` cursor movement (source
lines 226-231): consume an optional dot followed by a (possibly empty) run
of digits. -/
def scan_frac (s : List Char) : List Char × List Char :=
  match s with
  | '.' :: r => ('.' :: r.takeWhile is_digit, r.dropWhile is_digit)
  | _ => ([], s)

/-- The exponent step of the `json_parse_number` cursor movement (source
lines 232-240): consume an optional `e`/`E`, then an optional sign, then a
(possibly empty) run of digits. -/
def scan_exp (s : List Char) : List Char × List Char :=
  match s with
  | c :: r =>
    if c = 'e' ∨ c = 'E' then
      match r with
      | k :: r2 =>
        if k = '+' ∨ k = '-' then
          (c :: k :: r2.takeWhile is_digit, r2.dropWhile is_digit)
        else (c :: r.takeWhile is_digit, r.dropWhile is_digit)
      | [] => ([c], [])
    else ([], s)
  | [] => ([], s)

/-- The whole cursor movement of `json_parse_number` (source lines
218-244): an optional minus sign, a run of digits, an optional dot with a
run of digits, an optional exponent -- every run possibly empty, exactly
as the C while-loops accept.  Returns the scanned token and the remaining
input. -/
def scan_number (s : List Char) : List Char × List Char :=
  let a := scan_sign s
  let int_part := a.2.takeWhile is_digit
  let b := a.2.dropWhile is_digit
  let f := scan_frac b
  let e := scan_exp f.2
  (a.1 ++ int_part ++ f.1 ++ e.1, e.2)

/-- The value of a digit string, most significant digit first. -/
def digits_to_nat (ds : List Char) : Nat :=
  ds.foldl (fun acc c => acc * 10 + (c.toNat - '0'.toNat)) 0

/-- Modelled from the spec: the `standard decimal-to-double conversion`
(libc `strtod`) that `json_parse_number` hands the scanned token to.  The
body of `strtod` is not part of this repository; following the C standard
it converts the longest prefix of the form
sign? digits ( dot digits? )? ( (e|E) sign? digits )? (an exponent marker
not followed by a digit is not consumed; no digits at all yield zero).
The conversion is computed in exact rational arithmetic instead of
rounding to binary64; every number evaluated by the claims is exactly
representable, so the two agree there. -/
def strtod (s : List Char) : ℚ :=
  let sgn : Bool × List Char :=
    match s with
    | '-' :: r => (true, r)
    | '+' :: r => (false, r)
    | _ => (false, s)
  let s1 := sgn.2
  let int_digits := s1.takeWhile is_digit
  let s2 := s1.dropWhile is_digit
  let frac : List Char × List Char :=
    match s2 with
    | '.' :: r => (r.takeWhile is_digit, r.dropWhile is_digit)
    | _ => ([], s2)
  let frac_digits := frac.1
  let s3 := frac.2
  if int_digits = [] ∧ frac_digits = [] then 0
  else
    let m := digits_to_nat (int_digits ++ frac_digits)
    let ex : Bool × List Char :=
      match s3 with
      | c :: r =>
        if c = 'e' ∨ c = 'E' then
          match r with
          | '+' :: r2 => (false, r2.takeWhile is_digit)
          | '-' :: r2 => (true, r2.takeWhile is_digit)
          | _ => (false, r.takeWhile is_digit)
        else (false, ([] : List Char))
      | [] => (false, ([] : List Char))
    let eN := digits_to_nat ex.2
    let e : Int := (if ex.1 then -(eN : Int) else (eN : Int)) - frac_digits.length
    if 0 ≤ e then
      let k := m * 10 ^ e.toNat
      mkRat (if sgn.1 then -(k : Int) else (k : Int)) 1
    else
      mkRat (if sgn.1 then -(m : Int) else (m : Int)) (10 ^ (-e).toNat)

/-- Models `json_parse_number` (source lines 218-250): scan the token, convert it
with `strtod`, and return a Number value.  The function never fails and
never latches an error. -/
def json_parse_number (p : JsonParser) : Option JsonValue × JsonParser :=
  let t := scan_number p.cur
  (some (JsonValue.number (strtod t.1)), { p with cur := t.2 })

/-- Models `json_parse_literal` (source lines 321-333): match the literal text by
exact byte comparison (`strncmp`) against the remaining input; on success
advance past it and return the prepared value, otherwise latch
`Unexpected literal`.  The C caller passes the tag and the boolean payload
from which `json_make_value` builds the value; the model passes the built
value directly. -/
def json_parse_literal (p : JsonParser) (lit : List Char) (v : JsonValue) :
    Option JsonValue × JsonParser :=
  if lit.isPrefixOf p.cur then
    (some v, { p with cur := p.cur.drop lit.length })
  else (none, json_error p "Unexpected literal".toList)

mutual

/-- Models `json_parse_value` (source lines 335-366): skip whitespace and
dispatch on the byte at the cursor -- quote, brace, bracket, the `t`, `f`,
`n` literal lookaheads, minus or a digit; anything else latches
`Unexpected character`.  The fuel argument is the embedding of the
unbounded C recursion (see the file comment). -/
def json_parse_value (fuel : Nat) (p : JsonParser) :
    Option JsonValue × JsonParser :=
  match fuel with
  | 0 => (none, p)
  | fuel + 1 =>
    let p1 := json_skip_ws p
    let ch := json_peek p1
    if ch = quote_char then
      let r := json_parse_string_literal p1
      match r.1 with
      | none => (none, r.2)
      | some text => (some (JsonValue.str text), r.2)
    else if ch = lbrace_char then json_parse_object fuel p1
    else if ch = '[' then json_parse_array fuel p1
    else if ch = 't' then json_parse_literal p1 "true".toList (JsonValue.bool true)
    else if ch = 'f' then json_parse_literal p1 "false".toList (JsonValue.bool false)
    else if ch = 'n' then json_parse_literal p1 "null".toList JsonValue.null
    else if ch = '-' ∨ ch = '0' ∨ ch = '1' ∨ ch = '2' ∨ ch = '3' ∨ ch = '4' ∨
        ch = '5' ∨ ch = '6' ∨ ch = '7' ∨ ch = '8' ∨ ch = '9' then
      json_parse_number p1
    else (none, json_error p1 "Unexpected character".toList)

/-- Models `json_parse_array` (source lines 252-280): consume `[`, make the empty
array, and either close it at once on `]` or enter the element loop. -/
def json_parse_array (fuel : Nat) (p : JsonParser) :
    Option JsonValue × JsonParser :=
  match fuel with
  | 0 => (none, p)
  | fuel + 1 =>
    let p1 := json_expect p '['
    let p2 := json_skip_ws p1
    if json_peek p2 = ']' then
      (some (JsonValue.array []), json_expect p2 ']')
    else json_array_loop fuel p2 (JsonValue.array [])

/-- The `while (1)` element loop of `json_parse_array` (source lines
260-279), including the post-loop closing-bracket check.  A failed element
latches `Invalid array item` and returns the incomplete array (the C function
returns the non-NULL array with the error latched). -/
def json_array_loop (fuel : Nat) (p : JsonParser) (arr : JsonValue) :
    Option JsonValue × JsonParser :=
  match fuel with
  | 0 => (none, p)
  | fuel + 1 =>
    let p1 := json_skip_ws p
    let r := json_parse_value fuel p1
    match r.1 with
    | none => (some arr, json_error r.2 "Invalid array item".toList)
    | some item =>
      let arr1 := json_array_push arr item
      let p2 := json_skip_ws r.2
      if json_peek p2 = ',' then json_array_loop fuel (json_expect p2 ',') arr1
      else
        let p3 := if json_peek p2 = ']' then p2
          else json_error p2 "Unterminated array".toList
        (some arr1, json_expect p3 ']')

/-- Models `json_parse_object` (source lines 282-319): consume `{`, make the
empty object, and either close it at once on `}` or enter the member
loop. -/
def json_parse_object (fuel : Nat) (p : JsonParser) :
    Option JsonValue × JsonParser :=
  match fuel with
  | 0 => (none, p)
  | fuel + 1 =>
    let p1 := json_expect p lbrace_char
    let p2 := json_skip_ws p1
    if json_peek p2 = rbrace_char then
      (some (JsonValue.object []), json_expect p2 rbrace_char)
    else json_object_loop fuel p2 (JsonValue.object [])

/-- The `while (1)` member loop of `json_parse_object` (source lines
290-318), including the post-loop closing-brace check.  A non-quote byte
where a key is required latches `Expected string key`; a failed member
value latches `Invalid object value`; both return the incomplete object.
When the key parse fails the C code stores a NULL key pointer -- that can
only happen with the error slot already latched (every failing path of
`json_parse_string_literal` latches first, and the latch is never
cleared), so `json_parse` discards the tree and the stored key is never
observed; the model stores `[]` in its place. -/
def json_object_loop (fuel : Nat) (p : JsonParser) (obj : JsonValue) :
    Option JsonValue × JsonParser :=
  match fuel with
  | 0 => (none, p)
  | fuel + 1 =>
    let p1 := json_skip_ws p
    if json_peek p1 ≠ quote_char then
      (some obj, json_error p1 "Expected string key".toList)
    else
      let kr := json_parse_string_literal p1
      let key := kr.1.getD []
      let p2 := json_skip_ws kr.2
      let p3 := json_expect p2 ':'
      let p4 := json_skip_ws p3
      let vr := json_parse_value fuel p4
      match vr.1 with
      | none => (some obj, json_error vr.2 "Invalid object value".toList)
      | some v =>
        let obj1 := json_object_put obj key v
        let p5 := json_skip_ws vr.2
        if json_peek p5 = ',' then
          json_object_loop fuel (json_expect p5 ',') obj1
        else
          let p6 := if json_peek p5 = rbrace_char then p5
            else json_error p5 "Unterminated object".toList
          (some obj1, json_expect p6 rbrace_char)

end

/-- Models `json_parse` (source lines 374-390): parse one value from a fresh
parser state; fail if no value came back or an error was latched; then
skip trailing whitespace and fail on anything but the terminator
(`trailing characters`, reported by the caller, not latched); otherwise
return the value. -/
def json_parse (text : List Char) : Option JsonValue :=
  let p : JsonParser := { start := text, cur := text, error := [] }
  let r := json_parse_value (4 * text.length + 4) p
  match r.1 with
  | none => none
  | some value =>
    if r.2.error ≠ [] then none
    else
      let p2 := json_skip_ws r.2
      if json_peek p2 ≠ nul_char then none
      else some value

/-- The linear scan of `json_object_get` (source lines 425-429): the value
of the first entry whose key compares equal (`strcmp`, i.e. byte-wise
equality of NUL-free texts). -/
def json_object_get_entries :
    List (List Char × JsonValue) → List Char → Option JsonValue
  | [], _ => none
  | e :: rest, key => if e.1 = key then some e.2 else json_object_get_entries rest key

/-- Models `json_object_get` (source lines 422-431): NULL (absent) on a NULL or
non-object input, otherwise the first entry with a byte-wise equal key,
absent when none matches. -/
def json_object_get (objectValue : Option JsonValue) (key : List Char) :
    Option JsonValue :=
  match objectValue with
  | some (JsonValue.object entries) => json_object_get_entries entries key
  | _ => none

/-- Models `json_get_string` (source lines 433-439): the text payload of a String
value, the caller-supplied default on an absent value or any other
variant.  (The C function also substitutes the default for a String whose
payload pointer is NULL; no constructed value has one -- the parser only
builds Strings from a returned buffer -- and the model has no NULL
payload.) -/
def json_get_string (value : Option JsonValue) (defaultValue : List Char) :
    List Char :=
  match value with
  | some (JsonValue.str s) => s
  | _ => defaultValue

/-- Models `json_get_number` (source lines 441-447): the payload of a Number
value, the default otherwise. -/
def json_get_number (value : Option JsonValue) (defaultValue : ℚ) : ℚ :=
  match value with
  | some (JsonValue.number q) => q
  | _ => defaultValue

/-- Models `json_get_bool` (source lines 449-455): the payload of a Bool value,
the default otherwise. -/
def json_get_bool (value : Option JsonValue) (defaultValue : Bool) : Bool :=
  match value with
  | some (JsonValue.bool b) => b
  | _ => defaultValue

/-- Models `json_array_size` (source lines 457-460): the element count of an
Array value, `0` on a NULL or non-Array input. -/
def json_array_size (value : Option JsonValue) : Nat :=
  match value with
  | some (JsonValue.array items) => items.length
  | _ => 0

/-- Models `json_array_get` (source lines 462-466): NULL (absent) on a NULL or
non-Array input or an out-of-range index, otherwise the element at the
index. -/
def json_array_get (value : Option JsonValue) (index : Nat) :
    Option JsonValue :=
  match value with
  | some (JsonValue.array items) =>
    if index ≥ items.length then none else items[index]?
  | _ => none

/-- Follows the wording of the spec, for comparison with the code: a
whole-token matcher for the number grammar
`-? digit+ ( . digit+ )? ( (e|E) (+|-)? digit+ )?` of the claim. -/
def spec_number_grammar (s : List Char) : Bool :=
  let s1 := match s with | '-' :: r => r | _ => s
  let d1 := s1.takeWhile is_digit
  let s2 := s1.dropWhile is_digit
  if d1.isEmpty then false
  else
    let s3 : Option (List Char) :=
      match s2 with
      | '.' :: r =>
        if (r.takeWhile is_digit).isEmpty then none
        else some (r.dropWhile is_digit)
      | _ => some s2
    match s3 with
    | none => false
    | some s4 =>
      match s4 with
      | [] => true
      | c :: r =>
        if c = 'e' ∨ c = 'E' then
          let r2 := match r with
            | k :: rr => if k = '+' ∨ k = '-' then rr else r
            | [] => r
          !(r2.takeWhile is_digit).isEmpty && (r2.dropWhile is_digit).isEmpty
        else false

/-! Helper lemmas shared by several claims. -/

/-- Advancing with `json_next` over a non-NUL head consumes exactly that
character. -/
theorem json_next_cons (st r err : List Char) (c : Char) (h : c ≠ nul_char) :
    json_next { start := st, cur := c :: r, error := err } =
      (c, { start := st, cur := r, error := err }) := by
  simp [json_next, h]

/-- In a NUL-free list the NUL sentinel of `List.headD` signals exactly
the empty list. -/
theorem headD_nul_iff (l : List Char) (h : nul_char ∉ l) :
    l.headD nul_char = nul_char ↔ l = [] := by
  cases l with
  | nil => simp
  | cons a t =>
    simp only [List.headD, List.cons_ne_nil, iff_false]
    intro ha
    exact h (ha ▸ List.mem_cons_self a t)

/-- The sign step only drops leading characters. -/
theorem scan_sign_snd_suffix (s : List Char) : (scan_sign s).2 <:+ s := by
  unfold scan_sign
  split
  · exact List.suffix_cons _ _
  · exact List.suffix_refl _

/-- The fraction step only drops leading characters. -/
theorem scan_frac_snd_suffix (s : List Char) : (scan_frac s).2 <:+ s := by
  unfold scan_frac
  split
  · exact (List.dropWhile_suffix _).trans (List.suffix_cons _ _)
  · exact List.suffix_refl _

/-- The exponent step only drops leading characters. -/
theorem scan_exp_snd_suffix (s : List Char) : (scan_exp s).2 <:+ s := by
  unfold scan_exp
  split
  · split
    · split
      · split
        · exact ((List.dropWhile_suffix _).trans (List.suffix_cons _ _)).trans
            (List.suffix_cons _ _)
        · exact (List.dropWhile_suffix _).trans (List.suffix_cons _ _)
      · exact List.nil_suffix
    · exact List.suffix_refl _
  · exact List.suffix_refl _

/-- The remaining input after a number scan is a suffix of the input: the
scan only consumes from the front. -/
theorem scan_number_snd_suffix (s : List Char) : (scan_number s).2 <:+ s := by
  show (scan_exp (scan_frac ((scan_sign s).2.dropWhile is_digit)).2).2 <:+ s
  exact (scan_exp_snd_suffix _).trans ((scan_frac_snd_suffix _).trans
    ((List.dropWhile_suffix _).trans (scan_sign_snd_suffix _)))

/-- The linear object scan agrees with `List.find?`: the value of the
first entry in insertion order whose key is equal. -/
theorem json_object_get_entries_eq_find (entries : List (List Char × JsonValue))
    (key : List Char) :
    json_object_get_entries entries key =
      (entries.find? (fun e => e.1 == key)).map Prod.snd := by
  induction entries with
  | nil => rfl
  | cons e rest ih =>
    by_cases h : e.1 = key
    · simp [json_object_get_entries, List.find?, h]
    · have hb : (e.1 == key) = false := beq_eq_false_iff_ne.mpr h
      simp [json_object_get_entries, List.find?, h, hb, ih]

/-! The claims. -/

/-- C5: each typed extractor returns the caller-supplied default whenever
the value is absent or its variant does not match, and the payload
otherwise; an absent value and a present Null value are
indistinguishable, both yielding the default; no extractor can fail. -/
theorem claim_C5 (v : Option JsonValue) (ds : List Char) (dn : ℚ) (db : Bool) :
    (json_get_string v ds =
      match v with
      | some (JsonValue.str s) => s
      | _ => ds) ∧
    (json_get_number v dn =
      match v with
      | some (JsonValue.number q) => q
      | _ => dn) ∧
    (json_get_bool v db =
      match v with
      | some (JsonValue.bool b) => b
      | _ => db) ∧
    (json_get_string none ds = ds ∧ json_get_number none dn = dn ∧
      json_get_bool none db = db) ∧
    (json_get_string (some JsonValue.null) ds = ds ∧
      json_get_number (some JsonValue.null) dn = dn ∧
      json_get_bool (some JsonValue.null) db = db) := by
  obtain _ | w := v
  · exact ⟨rfl, rfl, rfl, ⟨rfl, rfl, rfl⟩, ⟨rfl, rfl, rfl⟩⟩
  · cases w <;> exact ⟨rfl, rfl, rfl, ⟨rfl, rfl, rfl⟩, ⟨rfl, rfl, rfl⟩⟩

/-- C6: the six primitive round-trips -- `true`, `false`, `null`, `42`,
`-3.5e2` and the string literal `abc` parse to Bool(true), Bool(false),
Null, Number(42), Number(-350) and String(abc). -/
theorem claim_C6 :
    json_parse ['t', 'r', 'u', 'e'] = some (JsonValue.bool true) ∧
    json_parse ['f', 'a', 'l', 's', 'e'] = some (JsonValue.bool false) ∧
    json_parse ['n', 'u', 'l', 'l'] = some JsonValue.null ∧
    json_parse ['4', '2'] = some (JsonValue.number 42) ∧
    json_parse ['-', '3', '.', '5', 'e', '2'] = some (JsonValue.number (-350)) ∧
    json_parse [quote_char, 'a', 'b', 'c', quote_char] =
      some (JsonValue.str ['a', 'b', 'c']) :=
  ⟨rfl, rfl, rfl, rfl, rfl, rfl⟩

/-- C7: `json_array_get` returns the element at the index when the value
is an Array and the index is in range, and the absent marker (no fault)
when the value is absent, not an Array, or the index is out of range;
`json_array_size` returns the length of an Array and 0 for any other
input instead of failing. -/
theorem claim_C7 (v : Option JsonValue) (i : Nat) :
    (json_array_get v i =
      match v with
      | some (JsonValue.array items) => items[i]?
      | _ => none) ∧
    (json_array_size v =
      match v with
      | some (JsonValue.array items) => items.length
      | _ => 0) := by
  constructor <;> rcases v with _ | w
  · rfl
  · cases w with
    | array items =>
      simp only [json_array_get]
      by_cases h : i ≥ items.length
      · rw [if_pos h, List.getElem?_eq_none h]
      · rw [if_neg h]
    | _ => rfl
  · rfl
  · cases w <;> rfl

/-- C8: the error slot is write-once.  On an empty slot, `json_error`
stores the message tagged with at most 32 characters of the input
following the failure point (truncated to the 127-character buffer); the
slot is then non-empty, a second report changes nothing, and on an
already non-empty slot the state is returned unchanged, so the latched
message is always the first failure. -/
theorem claim_C8 (p : JsonParser) (m1 m2 : List Char) :
    (p.error = [] →
      json_error p m1 =
        { p with error := (m1 ++ " near ".toList ++ p.cur.take 32).take 127 } ∧
      (json_error p m1).error ≠ [] ∧
      json_error (json_error p m1) m2 = json_error p m1) ∧
    (p.error ≠ [] → json_error p m2 = p) := by
  have hne : ∀ (q : JsonParser) (m : List Char), q.error ≠ [] → json_error q m = q := by
    intro q m hq
    simp [json_error, hq]
  constructor
  · intro h
    have h1 : json_error p m1 =
        { p with error := (m1 ++ " near ".toList ++ p.cur.take 32).take 127 } := by
      simp [json_error, h]
    have h2 : (json_error p m1).error ≠ [] := by
      rw [h1]
      simp [List.take_eq_nil_iff, List.append_eq_nil]
    exact ⟨h1, h2, hne _ m2 h2⟩
  · intro h
    exact hne p m2 h

/-- C8 witness: a first report on an empty slot latches the tagged
message, and a report on a non-empty slot is a no-op. -/
theorem claim_C8_witness :
    json_error { start := [], cur := ['x'], error := [] } ['m'] =
      { start := [], cur := ['x'],
        error := (['m'] ++ " near ".toList ++ ['x']).take 127 } ∧
    json_error { start := [], cur := ['x'], error := ['e'] } ['m'] =
      { start := [], cur := ['x'], error := ['e'] } :=
  ⟨by
    have h := (claim_C8 { start := [], cur := ['x'], error := [] } ['m'] ['m']).1 rfl
    simpa using h.1,
   (claim_C8 { start := [], cur := ['x'], error := ['e'] } ['m'] ['m']).2 (by simp)⟩

/-- C3: `json_object_put` always appends the new entry at the end without
searching for or overwriting a byte-wise equal key; `json_object_get`
returns the value of the first entry in insertion order whose key is
byte-wise equal (absent when none matches); hence the duplicate-key input
yields an Object with both entries in order, on which lookup of the key
returns Number(1). -/
theorem claim_C3 :
    (∀ (entries : List (List Char × JsonValue)) (k : List Char) (v : JsonValue),
      json_object_put (JsonValue.object entries) k v =
        JsonValue.object (entries ++ [(k, v)])) ∧
    (∀ (entries : List (List Char × JsonValue)) (k : List Char),
      json_object_get (some (JsonValue.object entries)) k =
        (entries.find? (fun e => e.1 == k)).map Prod.snd) ∧
    json_parse [lbrace_char, quote_char, 'a', quote_char, ':', '1', ',',
        quote_char, 'a', quote_char, ':', '2', rbrace_char] =
      some (JsonValue.object
        [(['a'], JsonValue.number 1), (['a'], JsonValue.number 2)]) ∧
    json_object_get (json_parse [lbrace_char, quote_char, 'a', quote_char, ':',
        '1', ',', quote_char, 'a', quote_char, ':', '2', rbrace_char]) ['a'] =
      some (JsonValue.number 1) :=
  ⟨fun _ _ _ => rfl, fun entries k => json_object_get_entries_eq_find entries k,
    rfl, rfl⟩

/-- C9: an empty input, or an input of whitespace only, makes
`json_parse_value` skip to the terminator and latch the
unexpected-character error with no value, so `json_parse` fails; end of
input is never a value. -/
theorem claim_C9 (text : List Char) (h : ∀ c ∈ text, is_ws c = true) :
    json_parse text = none ∧
    json_parse_value (4 * text.length + 4)
        { start := text, cur := text, error := [] } =
      (none, json_error { start := text, cur := [], error := [] }
        "Unexpected character".toList) ∧
    ("Unexpected character".toList).isPrefixOf
      (json_parse_value (4 * text.length + 4)
        { start := text, cur := text, error := [] }).2.error = true := by
  have hdrop : text.dropWhile is_ws = [] := List.dropWhile_eq_nil_iff.mpr h
  have hval : json_parse_value (4 * text.length + 4)
      { start := text, cur := text, error := [] } =
      (none, json_error { start := text, cur := [], error := [] }
        "Unexpected character".toList) := by
    rw [show 4 * text.length + 4 = (4 * text.length + 3) + 1 from rfl]
    simp [json_parse_value, json_skip_ws, json_peek, hdrop,
      nul_char, quote_char, lbrace_char]
  refine ⟨?_, hval, ?_⟩
  · simp [json_parse, hval]
  · rw [hval]
    simp only [json_error, if_pos]
    decide

/-- C9 witness: the one-space input fails with no value. -/
theorem claim_C9_witness : json_parse [' '] = none :=
  (claim_C9 [' '] (by decide)).1

/-- Dispatch of `json_parse_value` on a minus or digit start: the number
parser runs, never fails, never latches an error, and consumes exactly
the scanned token. -/
theorem json_parse_value_number_start (fuel : Nat) (st : List Char) (c : Char)
    (rest : List Char)
    (hd : c = '-' ∨ c = '0' ∨ c = '1' ∨ c = '2' ∨ c = '3' ∨ c = '4' ∨ c = '5' ∨
      c = '6' ∨ c = '7' ∨ c = '8' ∨ c = '9') :
    json_parse_value (fuel + 1) { start := st, cur := c :: rest, error := [] } =
      (some (JsonValue.number (strtod (scan_number (c :: rest)).1)),
        { start := st, cur := (scan_number (c :: rest)).2, error := [] }) := by
  rcases hd with h | h | h | h | h | h | h | h | h | h | h <;> subst h <;>
    simp [json_parse_value, json_skip_ws, json_peek, json_parse_number,
      List.dropWhile_cons, is_ws, quote_char, lbrace_char, nul_char]

/-- C1 (amended): on an input starting with a minus or a digit the parser
always scans the maximal token of the relaxed grammar
`-? digit* ( . digit* )? ( (e|E) (+|-)? digit* )?`, always produces the
Number given by the standard conversion of that token, and succeeds
exactly when only whitespace follows the token; in particular a lone `-`
parses as Number(0) and `1.` as Number(1) instead of failing. -/
theorem claim_C1 :
    (∀ (c : Char) (rest : List Char),
      (c = '-' ∨ c = '0' ∨ c = '1' ∨ c = '2' ∨ c = '3' ∨ c = '4' ∨ c = '5' ∨
        c = '6' ∨ c = '7' ∨ c = '8' ∨ c = '9') →
      nul_char ∉ rest →
      json_parse (c :: rest) =
        if (scan_number (c :: rest)).2.dropWhile is_ws = [] then
          some (JsonValue.number (strtod (scan_number (c :: rest)).1))
        else none) ∧
    json_parse ['-'] = some (JsonValue.number 0) ∧
    json_parse ['1', '.'] = some (JsonValue.number 1) := by
  refine ⟨?_, rfl, rfl⟩
  intro c rest hd hnul
  have hcnul : c ≠ nul_char := by
    rcases hd with h | h | h | h | h | h | h | h | h | h | h <;> subst h <;> decide
  have hval := json_parse_value_number_start (4 * (c :: rest).length + 3)
    (c :: rest) c rest hd
  rw [json_parse]
  rw [show 4 * (c :: rest).length + 4 = (4 * (c :: rest).length + 3) + 1 from rfl,
    hval]
  simp only [json_skip_ws, json_peek, ne_eq]
  by_cases hemp : (scan_number (c :: rest)).2.dropWhile is_ws = []
  · simp [hemp]
  · obtain ⟨a, t, hat⟩ := List.exists_cons_of_ne_nil hemp
    have ha : a ≠ nul_char := by
      intro haeq
      have hmem : a ∈ (scan_number (c :: rest)).2.dropWhile is_ws := by
        rw [hat]; exact List.mem_cons_self a t
      have hmem2 : a ∈ c :: rest :=
        (scan_number_snd_suffix (c :: rest)).subset
          ((List.dropWhile_suffix is_ws).subset hmem)
      rcases List.mem_cons.mp hmem2 with h | h
      · exact hcnul (h ▸ haeq ▸ rfl)
      · exact hnul (haeq ▸ h)
    simp [hat, ha]

/-- C1 witness: the single digit input parses to the conversion of its
scanned token with nothing left over. -/
theorem claim_C1_witness :
    json_parse ['4'] =
      if (scan_number ['4']).2.dropWhile is_ws = [] then
        some (JsonValue.number (strtod (scan_number ['4']).1))
      else none :=
  claim_C1.1 '4' [] (by decide) (by decide)

/-- C1 counterexample: the input `-` starts with a minus, its token does
not match the strict grammar of the claim, and yet the parse succeeds
with Number(0), so the failure the claim requires does not happen. -/
theorem claim_C1_counterexample :
    json_parse ['-'] = some (JsonValue.number 0) ∧
    spec_number_grammar ['-'] = false :=
  ⟨rfl, rfl⟩

/-- C4: once one complete value has been parsed with no latched error,
`json_parse` skips trailing whitespace and fails exactly when
non-whitespace input remains (the trailer error is reported by the
caller, not latched); `1 2` fails and `1` plus whitespace succeeds with
Number(1). -/
theorem claim_C4 :
    (∀ (text : List Char) (v : JsonValue) (p1 : JsonParser),
      json_parse_value (4 * text.length + 4)
          { start := text, cur := text, error := [] } = (some v, p1) →
      p1.error = [] →
      nul_char ∉ p1.cur →
      ((json_parse text = some v ↔ (json_skip_ws p1).cur = []) ∧
        (json_parse text = none ↔ (json_skip_ws p1).cur ≠ []))) ∧
    json_parse ['1', ' ', '2'] = none ∧
    json_parse ['1', ' '] = some (JsonValue.number 1) := by
  refine ⟨?_, rfl, rfl⟩
  intro text v p1 hv he hnul
  rw [json_parse, hv]
  simp only [json_skip_ws, json_peek, he, ne_eq]
  by_cases hl : p1.cur.dropWhile is_ws = []
  · rw [hl]
    simp
  · obtain ⟨a, t, hat⟩ := List.exists_cons_of_ne_nil hl
    have ha : a ≠ nul_char := by
      intro haeq
      have hmem : a ∈ p1.cur.dropWhile is_ws := by
        rw [hat]; exact List.mem_cons_self a t
      exact hnul (haeq ▸ (List.dropWhile_suffix is_ws).subset hmem)
    rw [hat]
    simp [ha]

/-- C4 witness: the one-digit input parses completely, and the two sides
of the equivalence hold at it. -/
theorem claim_C4_witness :
    (json_parse ['1'] = some (JsonValue.number 1) ↔
      (json_skip_ws { start := ['1'], cur := [], error := [] }).cur = []) ∧
    (json_parse ['1'] = none ↔
      (json_skip_ws { start := ['1'], cur := [], error := [] }).cur ≠ []) :=
  claim_C4.1 ['1'] (JsonValue.number 1)
    { start := ['1'], cur := [], error := [] } rfl rfl (by simp)

/-- One scanning step of the string loop over a simple escape: the
backslash and the escape character are consumed and the single resolved
byte is appended to the buffer. -/
theorem str_lit_loop_simple_step (fuel : Nat) (st rest buf err : List Char)
    (c b : Char)
    (h : (c = quote_char ∧ b = quote_char) ∨
      (c = backslash_char ∧ b = backslash_char) ∨
      (c = '/' ∧ b = '/') ∨
      (c = 'b' ∧ b = Char.ofNat 8) ∨
      (c = 'f' ∧ b = Char.ofNat 12) ∨
      (c = 'n' ∧ b = Char.ofNat 10) ∨
      (c = 'r' ∧ b = Char.ofNat 13) ∨
      (c = 't' ∧ b = Char.ofNat 9)) :
    str_lit_loop (fuel + 1)
        { start := st, cur := backslash_char :: c :: rest, error := err } buf =
      str_lit_loop fuel { start := st, cur := rest, error := err }
        (buf ++ [b]) := by
  rcases h with ⟨hc, hb⟩ | ⟨hc, hb⟩ | ⟨hc, hb⟩ | ⟨hc, hb⟩ | ⟨hc, hb⟩ |
    ⟨hc, hb⟩ | ⟨hc, hb⟩ | ⟨hc, hb⟩ <;> subst hc <;> subst hb <;>
    simp [str_lit_loop, json_peek, json_next,
      quote_char, backslash_char, nul_char]

/-- One scanning step of the string loop over a `u` escape: the backslash,
the `u` and the four following characters are consumed and copied to the
buffer verbatim. -/
theorem str_lit_loop_u_step (fuel : Nat) (st rest buf err : List Char)
    (c1 c2 c3 c4 : Char) (h1 : c1 ≠ nul_char) (h2 : c2 ≠ nul_char)
    (h3 : c3 ≠ nul_char) (h4 : c4 ≠ nul_char) :
    str_lit_loop (fuel + 1)
        { start := st,
          cur := backslash_char :: 'u' :: c1 :: c2 :: c3 :: c4 :: rest,
          error := err } buf =
      str_lit_loop fuel { start := st, cur := rest, error := err }
        (buf ++ [backslash_char, 'u', c1, c2, c3, c4]) := by
  have f1 : backslash_char ≠ nul_char := by decide
  have f2 : backslash_char ≠ quote_char := by decide
  have g0 : ('u' : Char) ≠ nul_char := by decide
  have gq : ('u' : Char) ≠ quote_char := by decide
  have gb : ('u' : Char) ≠ backslash_char := by decide
  simp [str_lit_loop, json_peek, json_next, f1, f2, g0, gq, gb,
    h1, h2, h3, h4]

/-- One scanning step of the string loop over an invalid escape: the
invalid-escape error is latched after the backslash and the offending
character were consumed, and no buffer is returned. -/
theorem str_lit_loop_invalid_step (fuel : Nat) (st rest buf err : List Char)
    (c : Char) (h0 : c ≠ nul_char) (hq : c ≠ quote_char)
    (hbs : c ≠ backslash_char) (hsl : c ≠ '/') (hb : c ≠ 'b') (hf : c ≠ 'f')
    (hn : c ≠ 'n') (hr : c ≠ 'r') (ht : c ≠ 't') (hu : c ≠ 'u') :
    str_lit_loop (fuel + 1)
        { start := st, cur := backslash_char :: c :: rest, error := err } buf =
      (none, json_error { start := st, cur := rest, error := err }
        "Invalid escape sequence".toList) := by
  have f1 : backslash_char ≠ nul_char := by decide
  have f2 : backslash_char ≠ quote_char := by decide
  simp [str_lit_loop, json_peek, json_next, f1, f2, h0, hq, hbs, hsl,
    hb, hf, hn, hr, ht, hu]

/-- The closing step of the string loop: at the closing quote the buffer
is returned and the quote is consumed. -/
theorem str_lit_loop_close (fuel : Nat) (st rest buf err : List Char) :
    str_lit_loop (fuel + 1)
        { start := st, cur := quote_char :: rest, error := err } buf =
      (some buf, { start := st, cur := rest, error := err }) := by
  have f0 : quote_char ≠ nul_char := by decide
  simp [str_lit_loop, json_peek, json_expect, json_next, f0]

/-- Consuming an expected quote succeeds and advances. -/
theorem json_expect_quote (st rest err : List Char) :
    json_expect { start := st, cur := quote_char :: rest, error := err }
        quote_char =
      { start := st, cur := rest, error := err } := by
  have f0 : quote_char ≠ nul_char := by decide
  simp [json_expect, json_next, f0]

/-- C2: inside a string literal each of the eight simple escapes resolves
to its single byte and scanning continues; a `u` escape copies the
backslash, the `u` and the four following characters into the buffer
verbatim (never decoded); any other character after a backslash latches
the invalid-escape error and fails; the two end-to-end examples yield the
contents a LF b and the six literal characters of the unicode escape. -/
theorem claim_C2 :
    (∀ (fuel : Nat) (st rest buf err : List Char) (c b : Char),
      ((c = quote_char ∧ b = quote_char) ∨
        (c = backslash_char ∧ b = backslash_char) ∨
        (c = '/' ∧ b = '/') ∨
        (c = 'b' ∧ b = Char.ofNat 8) ∨
        (c = 'f' ∧ b = Char.ofNat 12) ∨
        (c = 'n' ∧ b = Char.ofNat 10) ∨
        (c = 'r' ∧ b = Char.ofNat 13) ∨
        (c = 't' ∧ b = Char.ofNat 9)) →
      str_lit_loop (fuel + 1)
          { start := st, cur := backslash_char :: c :: rest, error := err } buf =
        str_lit_loop fuel { start := st, cur := rest, error := err }
          (buf ++ [b])) ∧
    (∀ (fuel : Nat) (st rest buf err : List Char) (c1 c2 c3 c4 : Char),
      c1 ≠ nul_char → c2 ≠ nul_char → c3 ≠ nul_char → c4 ≠ nul_char →
      str_lit_loop (fuel + 1)
          { start := st,
            cur := backslash_char :: 'u' :: c1 :: c2 :: c3 :: c4 :: rest,
            error := err } buf =
        str_lit_loop fuel { start := st, cur := rest, error := err }
          (buf ++ [backslash_char, 'u', c1, c2, c3, c4])) ∧
    (∀ (fuel : Nat) (st rest buf err : List Char) (c : Char),
      c ≠ nul_char → c ≠ quote_char → c ≠ backslash_char → c ≠ '/' →
      c ≠ 'b' → c ≠ 'f' → c ≠ 'n' → c ≠ 'r' → c ≠ 't' → c ≠ 'u' →
      str_lit_loop (fuel + 1)
          { start := st, cur := backslash_char :: c :: rest, error := err } buf =
        (none, json_error { start := st, cur := rest, error := err }
          "Invalid escape sequence".toList)) ∧
    json_parse [quote_char, 'a', backslash_char, 'n', 'b', quote_char] =
      some (JsonValue.str ['a', Char.ofNat 10, 'b']) ∧
    json_parse [quote_char, backslash_char, 'u', '0', '0', 'e', '9', quote_char] =
      some (JsonValue.str [backslash_char, 'u', '0', '0', 'e', '9']) :=
  ⟨str_lit_loop_simple_step, str_lit_loop_u_step, str_lit_loop_invalid_step,
    rfl, rfl⟩

/-- C2 witness: one scanning step resolves the `n` escape of a concrete
literal to the LF byte. -/
theorem claim_C2_witness :
    str_lit_loop 1
        { start := [], cur := [backslash_char, 'n', 'x'], error := [] } [] =
      str_lit_loop 0 { start := [], cur := ['x'], error := [] }
        ([] ++ [Char.ofNat 10]) :=
  claim_C2.1 0 [] ['x'] [] [] 'n' (Char.ofNat 10)
    (by right; right; right; right; right; left; exact ⟨rfl, rfl⟩)

/-- C10: the four characters after a `u` escape are not validated as hex
digits -- any four characters are consumed and copied verbatim, so the
whole literal parses to the six characters backslash, `u`, and those
four; in particular the non-hex escape `uZZZZ` is accepted, not
rejected. -/
theorem claim_C10 :
    (∀ (c1 c2 c3 c4 : Char),
      c1 ≠ nul_char → c2 ≠ nul_char → c3 ≠ nul_char → c4 ≠ nul_char →
      json_parse [quote_char, backslash_char, 'u', c1, c2, c3, c4, quote_char] =
        some (JsonValue.str [backslash_char, 'u', c1, c2, c3, c4])) ∧
    json_parse [quote_char, backslash_char, 'u', 'Z', 'Z', 'Z', 'Z', quote_char] =
      some (JsonValue.str [backslash_char, 'u', 'Z', 'Z', 'Z', 'Z']) := by
  constructor
  · intro c1 c2 c3 c4 h1 h2 h3 h4
    have hws : is_ws quote_char = false := rfl
    have hloop : str_lit_loop
        (List.length [quote_char, backslash_char, 'u', c1, c2, c3, c4,
          quote_char] + 1)
        { start := [quote_char, backslash_char, 'u', c1, c2, c3, c4, quote_char],
          cur := backslash_char :: 'u' :: c1 :: c2 :: c3 :: c4 :: [quote_char],
          error := [] } [] =
        (some [backslash_char, 'u', c1, c2, c3, c4],
          { start := [quote_char, backslash_char, 'u', c1, c2, c3, c4,
              quote_char],
            cur := [], error := [] }) := by
      rw [show List.length [quote_char, backslash_char, 'u', c1, c2, c3, c4,
          quote_char] + 1 = 8 + 1 from rfl,
        str_lit_loop_u_step 8 _ _ _ _ c1 c2 c3 c4 h1 h2 h3 h4,
        show (8 : Nat) = 7 + 1 from rfl,
        str_lit_loop_close 7]
      rfl
    have hlit : json_parse_string_literal
        { start := [quote_char, backslash_char, 'u', c1, c2, c3, c4, quote_char],
          cur := [quote_char, backslash_char, 'u', c1, c2, c3, c4, quote_char],
          error := [] } =
        (some [backslash_char, 'u', c1, c2, c3, c4],
          { start := [quote_char, backslash_char, 'u', c1, c2, c3, c4,
              quote_char],
            cur := [], error := [] }) := by
      rw [json_parse_string_literal, json_expect_quote]
      exact hloop
    have hval : json_parse_value (35 + 1)
        { start := [quote_char, backslash_char, 'u', c1, c2, c3, c4, quote_char],
          cur := [quote_char, backslash_char, 'u', c1, c2, c3, c4, quote_char],
          error := [] } =
        (some (JsonValue.str [backslash_char, 'u', c1, c2, c3, c4]),
          { start := [quote_char, backslash_char, 'u', c1, c2, c3, c4,
              quote_char],
            cur := [], error := [] }) := by
      simp [json_parse_value, json_skip_ws, json_peek, List.dropWhile_cons,
        hws, hlit]
    rw [json_parse,
      show 4 * List.length [quote_char, backslash_char, 'u', c1, c2, c3, c4,
        quote_char] + 4 = 35 + 1 from rfl,
      hval]
    simp [json_skip_ws, json_peek]
  · rfl

/-- C10 witness: the accepted escape with four concrete non-hex
characters. -/
theorem claim_C10_witness :
    json_parse [quote_char, backslash_char, 'u', 'Q', 'R', 'S', 'T', quote_char] =
      some (JsonValue.str [backslash_char, 'u', 'Q', 'R', 'S', 'T']) :=
  claim_C10.1 'Q' 'R' 'S' 'T' (by decide) (by decide) (by decide) (by decide)
